import Mathlib

/-!
Shallow embedding of the Requirement Matching & Feasibility Scoring Engine
of SiteSync (`app/scoring.py`), together with theorems settling the claims
about it.  Python strings are modelled as Lean `String` restricted to ASCII
behaviour (`str.strip`, `str.lower`, `str.isdigit` are modelled on their
ASCII semantics); Python floats are modelled as exact rationals `ℚ` (the
decimal literal's exact value; binary rounding of IEEE doubles is not
modelled).  Database rows are modelled as lists in stored order, and the
SQLAlchemy session as a structure of such lists.  All string operations are
implemented by structural recursion on the character list so that every
definition evaluates inside the kernel.
-/

unseal Rat.add Rat.mul Rat.sub Rat.inv Rat.ofScientific

namespace SiteSync

/-- A Python runtime value as it flows through `scoring.py`: `None`, a bool,
an int, a float (modelled as `ℚ`), a string, or a list of strings (the only
list shape `parse_value` produces). -/
inductive PyVal where
  | none
  | pybool (b : Bool)
  | pyint (n : ℤ)
  | num (q : ℚ)
  | str (s : String)
  | list (xs : List String)
  deriving DecidableEq

/-- Python `str.strip()` on ASCII text: drop leading and trailing whitespace. -/
def pyStrip (s : String) : String :=
  String.mk (((s.toList.dropWhile Char.isWhitespace).reverse.dropWhile Char.isWhitespace).reverse)

/-- Python `str.strip(c)` for a single-character argument: drop every leading
and every trailing occurrence of `c` (all of them, not one layer). -/
def pyStripChar (c : Char) (s : String) : String :=
  String.mk (((s.toList.dropWhile (· == c)).reverse.dropWhile (· == c)).reverse)

/-- Python `str.lower()` on ASCII text. -/
def pyLower (s : String) : String :=
  String.mk (s.toList.map Char.toLower)

/-- Python `str.isdigit()` on ASCII text: nonempty and all characters are
decimal digits. -/
def pyIsDigit (s : String) : Bool :=
  !s.toList.isEmpty && s.toList.all Char.isDigit

/-- Remove the first occurrence of `c`, if any. -/
def removeFirst (c : Char) : List Char → List Char
  | [] => []
  | x :: xs => if x = c then xs else x :: removeFirst c xs

/-- Python `txt.replace(".", "", 1)`: remove the first dot, if any. -/
def removeFirstDot (s : String) : String :=
  String.mk (removeFirst (Char.ofNat 46) s.toList)

/-- Python `txt.count(".")`. -/
def countDot (s : String) : Nat :=
  s.toList.count (Char.ofNat 46)

/-- Python `txt.startswith("[")`. -/
def startsWithBracket (s : String) : Bool :=
  s.toList.head? == some (Char.ofNat 91)

/-- Python `txt.endswith("]")`. -/
def endsWithBracket (s : String) : Bool :=
  s.toList.getLast? == some (Char.ofNat 93)

/-- Python `txt[1:-1]`. -/
def dropEnds (s : String) : String :=
  String.mk ((s.toList.drop 1).dropLast)

/-- Python `inner.split(",")` on the character list: splitting the empty
string yields one empty piece, and separators at the ends yield empty pieces. -/
def splitOnComma : List Char → List (List Char)
  | [] => [[]]
  | c :: rest =>
    let r := splitOnComma rest
    if c = ',' then [] :: r
    else
      match r with
      | g :: gs => (c :: g) :: gs
      | [] => [[c]]

/-- Python `str.split(",")` as a `String` function. -/
def pySplitComma (s : String) : List String :=
  (splitOnComma s.toList).map String.mk

/-- Python `sep.join(l)`. -/
def pyJoin (sep : String) : List String → String
  | [] => ""
  | [x] => x
  | x :: y :: rest => x ++ sep ++ pyJoin sep (y :: rest)

/-- Numeric value of a digit list, most significant first. -/
def natOfDigits (l : List Char) : Nat :=
  l.foldl (fun a c => 10 * a + (c.toNat - 48)) 0

/-- Decimal digit characters of `n`, most significant first (fuel-bounded:
the fuel bounds the number of digits, 30 is ample for every value arising). -/
def natDigits : Nat → Nat → List Char
  | 0, _ => []
  | fuel + 1, n =>
    if n < 10 then [Char.ofNat (48 + n)]
    else natDigits fuel (n / 10) ++ [Char.ofNat (48 + n % 10)]

/-- Python `str(n)` for a nonnegative integer. -/
def natRepr (n : Nat) : String :=
  String.mk (natDigits 30 n)

/-- Python `str(i)` for an integer. -/
def intRepr (i : ℤ) : String :=
  (if i < 0 then "-" else "") ++ natRepr i.natAbs

/-- Floor of a rational as an integer (via flooring integer division). -/
def ratFloor (q : ℚ) : ℤ :=
  q.num.fdiv (q.den : ℤ)

/-- Sign handling of the float literal grammar: an optional leading `+`/`-`. -/
def splitSign (l : List Char) : ℚ × List Char :=
  if l.head? == some '+' then (1, l.tail)
  else if l.head? == some '-' then (-1, l.tail)
  else (1, l)

/-- Fraction handling of the float literal grammar: an optional `.` followed
by digits; returns the fraction digits and the unconsumed remainder. -/
def splitFrac (r1 : List Char) : List Char × List Char :=
  if r1.head? == some '.' then (r1.tail.takeWhile Char.isDigit, r1.tail.dropWhile Char.isDigit)
  else ([], r1)

/-- Exponent handling of the float literal grammar: `e`/`E`, an optional
sign, and at least one digit consuming the whole remainder; yields the scale
factor. -/
def parseExp (r2 : List Char) : Option ℚ :=
  if r2.head? == some 'e' || r2.head? == some 'E' then
    let r3 := r2.tail
    let negE := r3.head? == some '-'
    let eds := if r3.head? == some '+' || r3.head? == some '-' then r3.tail else r3
    if !eds.isEmpty && eds.all Char.isDigit then
      let ev : ℚ := ((10 ^ natOfDigits eds : ℕ) : ℚ)
      some (if negE then ev⁻¹ else ev)
    else Option.none
  else Option.none

/-- Modelled Python `float(s)` on a string: optional surrounding whitespace,
optional sign, decimal digits with optional fraction, optional exponent part.
The `inf`/`nan` tokens, digit-group underscores and non-ASCII digits accepted
by CPython are not modelled (no claim depends on them).  The result is the
exact rational value of the literal. -/
def pyFloatOfString (s : String) : Option ℚ :=
  let l := (pyStrip s).toList
  let sr := splitSign l
  let ip := sr.2.takeWhile Char.isDigit
  let r1 := sr.2.dropWhile Char.isDigit
  let fr := splitFrac r1
  if ip.length + fr.1.length = 0 then Option.none
  else
    let mant : ℚ := (natOfDigits ip : ℚ) + (natOfDigits fr.1 : ℚ) / ((10 ^ fr.1.length : ℕ) : ℚ)
    if fr.2.isEmpty then some (sr.1 * mant)
    else (parseExp fr.2).map (fun ev => sr.1 * mant * ev)

/-- Decimal digits of the fractional part `q` (with `0 ≤ q < 1`), fuel-bounded. -/
def fracDigits : Nat → ℚ → List Char
  | 0, _ => []
  | n + 1, q =>
    if q = 0 then []
    else
      let d : ℤ := ratFloor (q * 10)
      Char.ofNat (48 + d.toNat) :: fracDigits n (q * 10 - (d : ℚ))

/-- Modelled Python `str()`/`repr()` of a float holding the exact decimal `q`:
integral values render with a trailing `.0`, others with their (terminating)
decimal expansion.  Only ever applied to values arising from short decimal
literals, where this agrees with CPython. -/
def pyFloatRepr (q : ℚ) : String :=
  let sgn := if q < 0 then "-" else ""
  let a := if q < 0 then -q else q
  let ip := ratFloor a
  let fp := a - (ip : ℚ)
  if fp = 0 then sgn ++ intRepr ip ++ ".0"
  else sgn ++ intRepr ip ++ "." ++ String.mk (fracDigits 40 fp)

/-- Python `str()` of the values `scoring.py` passes around. -/
def pyStr : PyVal → String
  | PyVal.none => "None"
  | PyVal.pybool b => if b then "True" else "False"
  | PyVal.pyint n => intRepr n
  | PyVal.num q => pyFloatRepr q
  | PyVal.str s => s
  | PyVal.list xs =>
    "[" ++ pyJoin ", "
      (xs.map (fun x => String.mk [Char.ofNat 39] ++ x ++ String.mk [Char.ofNat 39])) ++ "]"

/-- Function `_to_number` from `app/scoring.py`: `float(s)` under `try`, falling back to
`float(str(s))`, and `None` on failure.  On a bool Python's `float` yields 0/1
(bool is an int subtype); on a list both conversions raise, giving `None`. -/
def to_number : PyVal → Option ℚ
  | PyVal.none => Option.none
  | PyVal.pybool b => some (if b then 1 else 0)
  | PyVal.pyint n => some (n : ℚ)
  | PyVal.num q => some q
  | PyVal.str s => pyFloatOfString s
  | PyVal.list _ => Option.none

/-- Function `parse_value` from `app/scoring.py`: turn a stored text value into a
Python value (list, number, bool, or string).  The numeric branch mirrors the
source condition `n is not None and txt.replace(".", "", 1).isdigit() or
(txt.count(".") == 1 and txt.replace(".","",1).isdigit())` literally,
including the `return n` that would yield `None` when only the second
disjunct holds. -/
def parse_value (raw : Option String) : PyVal :=
  match raw with
  | Option.none => PyVal.none
  | some r =>
    let txt := pyStrip r
    if startsWithBracket txt && endsWithBracket txt then
      let inner := pyStrip (dropEnds txt)
      if inner = "" then PyVal.list []
      else
        PyVal.list ((pySplitComma inner).map
          (fun v => pyStripChar (Char.ofNat 39) (pyStripChar (Char.ofNat 34) (pyStrip v))))
    else
      let low := pyLower txt
      if low = "true" ∨ low = "false" then PyVal.pybool (low = "true")
      else
        let n := to_number (PyVal.str txt)
        if (n.isSome && pyIsDigit (removeFirstDot txt))
            || (countDot txt == 1 && pyIsDigit (removeFirstDot txt)) then
          match n with
          | some q => PyVal.num q
          | Option.none => PyVal.none
        else PyVal.str txt

/-- Function `evaluate_rule` from `app/scoring.py`: compare `field_value` (string from
the DB, or absent) to `rule_value` using `op`. -/
def evaluate_rule (op : String) (rule_value : PyVal) (field_value : Option String) : Bool :=
  match field_value with
  | Option.none => false
  | some fv =>
    let rv := rule_value
    if op = "in" then
      match rv with
      | PyVal.list xs => (xs.map (fun x => pyLower (pyStrip x))).contains (pyLower (pyStrip fv))
      | _ => false
    else if op = "==" then
      pyLower (pyStrip fv) == pyLower (pyStrip (pyStr rv))
    else
      let fv_num := pyFloatOfString fv
      let rv_num := to_number rv
      if op = ">=" ∨ op = "<=" ∨ op = ">" ∨ op = "<" then
        match fv_num, rv_num with
        | some a, some b =>
          if op = ">=" then decide (a ≥ b)
          else if op = "<=" then decide (a ≤ b)
          else if op = ">" then decide (a > b)
          else decide (a < b)
        | _, _ => false
      else false

/-- A `site_truth_fields` row restricted to the columns `scoring.py` reads. -/
structure SiteTruthField where
  key : String
  value : String
  deriving DecidableEq

/-- A `site_patient_capabilities` row restricted to the columns `scoring.py`
reads (nullable columns are `Option`). -/
structure SitePatientCapability where
  indication_label : Option String
  age_min_years : Option ℤ
  age_max_years : Option ℤ
  sex : Option String
  annual_eligible_patients : Option ℤ
  deriving DecidableEq

/-- A `protocol_requirements` row restricted to the columns `scoring.py`
reads.  `type` is documented as `"objective" | "subjective"`. -/
structure ProtocolRequirement where
  key : String
  op : String
  value : Option String
  weight : ℤ
  type : String
  source_question : Option String
  deriving DecidableEq

/-- The database, modelled as its rows in stored order; each row is paired
with the protocol / site id it belongs to, and `protocols` lists the ids of
the existing protocol rows. -/
structure DB where
  protocols : List ℤ
  requirements : List (ℤ × ProtocolRequirement)
  truth_fields : List (ℤ × SiteTruthField)
  capabilities : List (ℤ × SitePatientCapability)
  deriving DecidableEq

/-- The requirement rows of a protocol, in stored order. -/
def reqsFor (db : DB) (protocol_id : ℤ) : List ProtocolRequirement :=
  (db.requirements.filter (fun p => p.1 == protocol_id)).map Prod.snd

/-- The truth-field rows of a site, in stored order. -/
def truthsFor (db : DB) (site_id : ℤ) : List SiteTruthField :=
  (db.truth_fields.filter (fun p => p.1 == site_id)).map Prod.snd

/-- The patient-capability rows of a site, in stored order. -/
def capsFor (db : DB) (site_id : ℤ) : List SitePatientCapability :=
  (db.capabilities.filter (fun p => p.1 == site_id)).map Prod.snd

/-- Insert into the string map, overwriting. -/
def tmapInsert (m : String → Option String) (k v : String) : String → Option String :=
  fun x => if x = k then some v else m x

/-- Minimum of a list of integers (Python `min`), `none` on the empty list. -/
def listMin : List ℤ → Option ℤ
  | [] => Option.none
  | x :: xs => some (xs.foldl min x)

/-- Maximum of a list of integers (Python `max`), `none` on the empty list. -/
def listMax : List ℤ → Option ℤ
  | [] => Option.none
  | x :: xs => some (xs.foldl max x)

/-- Python `p.sex or "all"`: `None` and the empty string are falsy. -/
def sexOrAll (sex : Option String) : String :=
  match sex with
  | some s => if s = "" then "all" else s
  | Option.none => "all"

/-- The labels comprehension `[p.indication_label for p in pcs if p.indication_label]`:
keep the present, nonempty labels. -/
def presentLabels (pcs : List SitePatientCapability) : List String :=
  pcs.filterMap (fun p =>
    match p.indication_label with
    | some l => if l = "" then Option.none else some l
    | Option.none => Option.none)

/-- Python `set(...)` of the lowered sexes, modelled as the deduplicated list (first
occurrences, in order); only membership, size and the single element of a
singleton are ever consumed, so the set order does not matter. -/
def loweredSexes (pcs : List SitePatientCapability) : List String :=
  (pcs.map (fun p => pyLower (sexOrAll p.sex))).dedup

/-- Function `load_site_truth_map` from `app/scoring.py`: flat truth fields first, then
(if any capability rows exist) the synthesized aggregate keys, which overwrite
flat facts of the same name. -/
def load_site_truth_map (truths : List SiteTruthField)
    (pcs : List SitePatientCapability) : String → Option String :=
  let t0 : String → Option String := fun _ => Option.none
  let t1 := truths.foldl (fun m t => tmapInsert m t.key t.value) t0
  if pcs.isEmpty then t1
  else
    let labels := presentLabels pcs
    let t2 := if !labels.isEmpty then tmapInsert t1 "indications" (pyJoin ", " labels) else t1
    let t3 :=
      match listMin (pcs.filterMap (fun p => p.age_min_years)) with
      | some m => tmapInsert t2 "patient_age_min_years" (intRepr m)
      | Option.none => t2
    let t4 :=
      match listMax (pcs.filterMap (fun p => p.age_max_years)) with
      | some m => tmapInsert t3 "patient_age_max_years" (intRepr m)
      | Option.none => t3
    let sexes := loweredSexes pcs
    let t5 :=
      if sexes.contains "all" || decide (1 < sexes.length) then
        tmapInsert t4 "patient_sex" "all"
      else tmapInsert t4 "patient_sex" (sexes.headD "all")
    match listMax (pcs.filterMap (fun p => p.annual_eligible_patients)) with
    | some m => tmapInsert t5 "annual_eligible_patients" (intRepr m)
    | Option.none => t5

/-- The fact map the Scorer builds for a site. -/
def tmapFor (db : DB) (site_id : ℤ) : String → Option String :=
  load_site_truth_map (truthsFor db site_id) (capsFor db site_id)

/-- Python `round()` on the exact rational value: round half to even. -/
def pyRound (q : ℚ) : ℤ :=
  let f := ratFloor q
  let r := q - (f : ℚ)
  if r < 1 / 2 then f
  else if 1 / 2 < r then f + 1
  else if f % 2 = 0 then f else f + 1

/-- A match/miss record as appended by the scoring loop. -/
structure ReqRecord where
  key : String
  value : Option String
  op : String
  target : PyVal
  weight : ℤ
  source_question : Option String
  deriving DecidableEq

/-- A subjective record as appended by the scoring loop. -/
structure SubjRecord where
  key : String
  op : String
  target : PyVal
  weight : ℤ
  source_question : Option String
  deriving DecidableEq

/-- The dictionary `score_protocol_for_site` returns in the non-error case. -/
structure ScoreResult where
  protocol_id : ℤ
  site_id : ℤ
  score : ℤ
  confidence : ℤ
  total_weight : ℤ
  matches' : List ReqRecord
  misses : List ReqRecord
  subjective : List SubjRecord
  deriving DecidableEq

/-- Outcome of `score_protocol_for_site`: either the sentinel error
dictionary `{"error": msg}` or the result dictionary. -/
inductive ScoreOutcome where
  | error (msg : String)
  | ok (r : ScoreResult)
  deriving DecidableEq

/-- The subjective entry built at `scoring.py` line 120. -/
def mkSubj (r : ProtocolRequirement) : SubjRecord :=
  ⟨r.key, r.op, parse_value r.value, r.weight, r.source_question⟩

/-- The match/miss entry built at `scoring.py` line 127, given the fact map. -/
def mkRec (tmap : String → Option String) (r : ProtocolRequirement) : ReqRecord :=
  ⟨r.key, tmap r.key, r.op, parse_value r.value, r.weight, r.source_question⟩

/-- The flag `ok = evaluate_rule(r.op, rv, val)` at `scoring.py` line 126. -/
def reqOk (tmap : String → Option String) (r : ProtocolRequirement) : Bool :=
  evaluate_rule r.op (parse_value r.value) (tmap r.key)

/-- Accumulator of the scoring loop: `score`, `matches`, `misses`,
`subjective`. -/
structure ScoreAcc where
  score : ℤ
  matches' : List ReqRecord
  misses : List ReqRecord
  subjective : List SubjRecord
  deriving DecidableEq

/-- One iteration of the `for r in reqs` loop of `score_protocol_for_site`. -/
def scoreStep (tmap : String → Option String) (acc : ScoreAcc)
    (r : ProtocolRequirement) : ScoreAcc :=
  if r.type == "subjective" then
    { acc with subjective := acc.subjective ++ [mkSubj r] }
  else if reqOk tmap r then
    { acc with matches' := acc.matches' ++ [mkRec tmap r], score := acc.score + r.weight }
  else
    { acc with misses := acc.misses ++ [mkRec tmap r] }

/-- Python `sum(r.weight for r in reqs if r.type == "objective")`. -/
def objWeightSum (reqs : List ProtocolRequirement) : ℤ :=
  ((reqs.filter (fun r => r.type == "objective")).map (fun r => r.weight)).sum

/-- Function `score_protocol_for_site` from `app/scoring.py`. -/
def score_protocol_for_site (db : DB) (protocol_id site_id : ℤ) : ScoreOutcome :=
  if !(db.protocols.contains protocol_id) then ScoreOutcome.error "protocol_not_found"
  else
    let reqs := reqsFor db protocol_id
    let tmap := tmapFor db site_id
    let total_weight := if objWeightSum reqs = 0 then 1 else objWeightSum reqs
    let acc := reqs.foldl (scoreStep tmap) ⟨0, [], [], []⟩
    ScoreOutcome.ok
      { protocol_id := protocol_id
        site_id := site_id
        score := acc.score
        confidence := pyRound (100 * ((acc.score : ℚ) / (total_weight : ℚ)))
        total_weight := total_weight
        matches' := acc.matches'
        misses := acc.misses
        subjective := acc.subjective }

/-- Python `r.source_question or r.key`: `None` and the empty string fall
back to the key. -/
def questionOrKey (q : Option String) (k : String) : String :=
  match q with
  | some s => if s = "" then k else s
  | Option.none => k

/-- An entry of `objective_answers` in the autofill draft. -/
structure AnswerRecord where
  question : String
  key : String
  proposed_answer : String
  rationale : String
  meets_requirement : Bool
  deriving DecidableEq

/-- An entry of `unresolved_missing_data` in the autofill draft. -/
structure MissingRecord where
  question : String
  key : String
  reason : String
  deriving DecidableEq

/-- The rationale f-string of line 168: the words `From site truth field`
followed by the requirement key wrapped in single quotes. -/
def rationaleFor (k : String) : String :=
  "From site truth field " ++ String.mk [Char.ofNat 39] ++ k ++ String.mk [Char.ofNat 39]

/-- The `objective_answers` entry built at `scoring.py` line 164. -/
def mkAnswer (r : ProtocolRequirement) (site_val : String) : AnswerRecord :=
  ⟨questionOrKey r.source_question r.key, r.key, site_val, rationaleFor r.key,
    evaluate_rule r.op (parse_value r.value) (some site_val)⟩

/-- The `unresolved_missing_data` entry built at `scoring.py` line 172. -/
def mkMissing (r : ProtocolRequirement) : MissingRecord :=
  ⟨questionOrKey r.source_question r.key, r.key, "No site data found"⟩

/-- Accumulator of the draft loop. -/
structure DraftAcc where
  answers : List AnswerRecord
  missing : List MissingRecord
  deriving DecidableEq

/-- One iteration of the `for r in prot_reqs` loop of `build_autofill_draft`. -/
def draftStep (tmap : String → Option String) (acc : DraftAcc)
    (r : ProtocolRequirement) : DraftAcc :=
  if r.type == "subjective" then acc
  else
    match tmap r.key with
    | some site_val => { acc with answers := acc.answers ++ [mkAnswer r site_val] }
    | Option.none => { acc with missing := acc.missing ++ [mkMissing r] }

/-- The dictionary `build_autofill_draft` returns in the non-error case; the
source nests `score`, `confidence` and `total_weight` under a `"score"` key,
flattened here into three fields. -/
structure AutofillDraft where
  score : ℤ
  confidence : ℤ
  total_weight : ℤ
  objective_answers : List AnswerRecord
  unresolved_subjective : List SubjRecord
  unresolved_missing_data : List MissingRecord
  coverage_pct : ℤ
  deriving DecidableEq

/-- Outcome of `build_autofill_draft`. -/
inductive DraftOutcome where
  | error (msg : String)
  | ok (d : AutofillDraft)
  deriving DecidableEq

/-- Function `build_autofill_draft` from `app/scoring.py`. -/
def build_autofill_draft (db : DB) (protocol_id site_id : ℤ) : DraftOutcome :=
  match score_protocol_for_site db protocol_id site_id with
  | ScoreOutcome.error e => DraftOutcome.error e
  | ScoreOutcome.ok res =>
    let tmap := tmapFor db site_id
    let prot_reqs := reqsFor db protocol_id
    let acc := prot_reqs.foldl (draftStep tmap) ⟨[], []⟩
    let objCount := (prot_reqs.filter (fun r => r.type == "objective")).length
    DraftOutcome.ok
      { score := res.score
        confidence := res.confidence
        total_weight := res.total_weight
        objective_answers := acc.answers
        unresolved_subjective := res.subjective
        unresolved_missing_data := acc.missing
        coverage_pct := pyRound (100 * ((acc.answers.length : ℚ) / ((max 1 objCount : ℕ) : ℚ))) }

/-- Extract the result of a non-error scoring outcome (default otherwise). -/
def ScoreOutcome.get (o : ScoreOutcome) (d : ScoreResult) : ScoreResult :=
  match o with
  | ScoreOutcome.ok r => r
  | ScoreOutcome.error _ => d

/-- Extract the draft of a non-error draft outcome (default otherwise). -/
def DraftOutcome.get (o : DraftOutcome) (d : AutofillDraft) : AutofillDraft :=
  match o with
  | DraftOutcome.ok r => r
  | DraftOutcome.error _ => d

/-- The requirements the scoring loop sends to `matches`: not subjective and
the rule evaluates true against the fact map. -/
def matchedReqs (db : DB) (pid sid : ℤ) : List ProtocolRequirement :=
  (reqsFor db pid).filter (fun r => !(r.type == "subjective") && reqOk (tmapFor db sid) r)

/-- The requirements the scoring loop sends to `misses`. -/
def missedReqs (db : DB) (pid sid : ℤ) : List ProtocolRequirement :=
  (reqsFor db pid).filter (fun r => !(r.type == "subjective") && !(reqOk (tmapFor db sid) r))

/-- The requirements the scoring loop sends to `subjective`. -/
def subjReqs (db : DB) (pid : ℤ) : List ProtocolRequirement :=
  (reqsFor db pid).filter (fun r => r.type == "subjective")

/-- The accumulated score: sum of the matched weights. -/
def scoreOf (db : DB) (pid sid : ℤ) : ℤ :=
  ((matchedReqs db pid sid).map (fun r => r.weight)).sum

/-- Field `total_weight`: the objective weight sum, guarded to 1 when it is 0. -/
def totalWeightOf (db : DB) (pid : ℤ) : ℤ :=
  if objWeightSum (reqsFor db pid) = 0 then 1 else objWeightSum (reqsFor db pid)

/-- The autofill answers in closed form: one entry per non-subjective
requirement whose key has a fact, carrying the raw fact string. -/
def draftAnswers (db : DB) (pid sid : ℤ) : List AnswerRecord :=
  (reqsFor db pid).filterMap (fun r =>
    if r.type == "subjective" then Option.none
    else (tmapFor db sid r.key).map (mkAnswer r))

/-- The autofill missing-data entries in closed form: one per non-subjective
requirement whose key has no fact. -/
def draftMissing (db : DB) (pid sid : ℤ) : List MissingRecord :=
  (reqsFor db pid).filterMap (fun r =>
    if r.type == "subjective" then Option.none
    else
      match tmapFor db sid r.key with
      | some _ => Option.none
      | Option.none => some (mkMissing r))

/-- Python `len([r for r in prot_reqs if r.type == "objective"])`. -/
def objCountOf (db : DB) (pid : ℤ) : ℕ :=
  ((reqsFor db pid).filter (fun r => r.type == "objective")).length

/-- Default result used to name the `ok` payload of a concrete scoring call. -/
def scoreDefault : ScoreResult := ⟨0, 0, 0, 0, 0, [], [], []⟩

/-- Default draft used to name the `ok` payload of a concrete draft call. -/
def draftDefault : AutofillDraft := ⟨0, 0, 0, [], [], [], 0⟩

/-- A protocol whose single requirement is subjective, for the C2 witness. -/
def dbAllSubjective : DB :=
  ⟨[1], [(1, ⟨"staff", "==", some "experienced", 3, "subjective", Option.none⟩)], [], []⟩

/-- A protocol with one requirement in an undocumented category, matched by
a site fact, for C10: score 5 against guarded total_weight 1. -/
def dbNonstdCategory : DB :=
  ⟨[1], [(1, ⟨"k", "==", some "yes", 5, "other", Option.none⟩)], [(1, ⟨"k", "yes"⟩)], []⟩

/-- The per-piece quote handling as claim C6 words it: strip one layer of
surrounding single or double quotes (modelled from the claim for
comparison with the source's strip-all behaviour). -/
def stripOneLayerQuotes (s : String) : String :=
  let l := s.toList
  if (decide (2 ≤ l.length)) &&
      ((l.head? == some (Char.ofNat 34) && l.getLast? == some (Char.ofNat 34)) ||
        (l.head? == some (Char.ofNat 39) && l.getLast? == some (Char.ofNat 39))) then
    String.mk ((l.drop 1).dropLast)
  else s

/-- Normalizer `parse_value` as the amended claim C6 words it: a strict first-match
ladder in which each bracketed piece is trimmed, then stripped of all
surrounding double quotes, then of all surrounding single quotes, and a
text that is all digits after removing at most one dot becomes the parsed
float. -/
def parse_value_spec (raw : Option String) : PyVal :=
  match raw with
  | Option.none => PyVal.none
  | some r =>
    let txt := pyStrip r
    if startsWithBracket txt && endsWithBracket txt then
      let inner := pyStrip (dropEnds txt)
      if inner = "" then PyVal.list []
      else
        PyVal.list ((pySplitComma inner).map
          (fun v => pyStripChar (Char.ofNat 39) (pyStripChar (Char.ofNat 34) (pyStrip v))))
    else if pyLower txt = "true" then PyVal.pybool true
    else if pyLower txt = "false" then PyVal.pybool false
    else if pyIsDigit (removeFirstDot txt) then PyVal.num ((pyFloatOfString txt).getD 0)
    else PyVal.str txt

/-- Two capability rows (volumes 100 and 300, agreeing sex, distinct
labels) over a flat fact with the same volume key, for the C7 witness. -/
def pcsTwo : List SitePatientCapability :=
  [⟨some "Oncology", some 18, some 65, some "male", some 100⟩,
    ⟨some "Cardiology", some 30, some 80, some "male", some 300⟩]

/-- Four objective requirements, three with facts, for the C8 witness. -/
def db4of3 : DB :=
  ⟨[1],
    [(1, ⟨"a", "==", some "x", 1, "objective", Option.none⟩),
      (1, ⟨"b", ">=", some "2", 1, "objective", Option.none⟩),
      (1, ⟨"c", "==", some "y", 1, "objective", Option.none⟩),
      (1, ⟨"d", "<", some "9", 1, "objective", Option.none⟩)],
    [(1, ⟨"a", "x"⟩), (1, ⟨"b", "3"⟩), (1, ⟨"c", "z"⟩)], []⟩

/-- Mixed objective/subjective protocol for the C1 witness: one objective
match, one objective miss (absent fact), one subjective requirement. -/
def dbMixed : DB :=
  ⟨[1],
    [(1, ⟨"ct_scanners", ">=", some "2", 4, "objective", some "How many CT scanners?"⟩),
      (1, ⟨"emr", "==", some "Epic", 2, "objective", Option.none⟩),
      (1, ⟨"staff_rating", "==", some "experienced", 3, "subjective", Option.none⟩)],
    [(1, ⟨"ct_scanners", "3"⟩)], []⟩

/-- The scoring loop in closed form: folding `scoreStep` over the requirement
list appends, to each accumulator component, the records of the requirements
selected by the corresponding filter, and adds the matched weights to the
score. -/
theorem scoreStep_foldl (tmap : String → Option String)
    (reqs : List ProtocolRequirement) (acc : ScoreAcc) :
    reqs.foldl (scoreStep tmap) acc =
      ⟨acc.score + ((reqs.filter (fun r => !(r.type == "subjective") && reqOk tmap r)).map
          (fun r => r.weight)).sum,
        acc.matches' ++
          (reqs.filter (fun r => !(r.type == "subjective") && reqOk tmap r)).map (mkRec tmap),
        acc.misses ++
          (reqs.filter (fun r => !(r.type == "subjective") && !(reqOk tmap r))).map (mkRec tmap),
        acc.subjective ++ (reqs.filter (fun r => r.type == "subjective")).map mkSubj⟩ := by
  induction reqs generalizing acc with
  | nil => simp
  | cons r rest ih =>
    simp only [List.foldl_cons, List.filter_cons]
    by_cases hs : (r.type == "subjective") = true
    · rw [ih]
      simp [scoreStep, hs]
    · by_cases hk : reqOk tmap r = true
      · rw [ih]
        simp [scoreStep, hs, hk, add_assoc]
      · rw [ih]
        simp [scoreStep, hs, hk]

/-- The autofill loop in closed form. -/
theorem draftStep_foldl (tmap : String → Option String)
    (reqs : List ProtocolRequirement) (acc : DraftAcc) :
    reqs.foldl (draftStep tmap) acc =
      ⟨acc.answers ++ reqs.filterMap (fun r =>
          if r.type == "subjective" then Option.none
          else (tmap r.key).map (mkAnswer r)),
        acc.missing ++ reqs.filterMap (fun r =>
          if r.type == "subjective" then Option.none
          else match tmap r.key with
            | some _ => Option.none
            | Option.none => some (mkMissing r))⟩ := by
  induction reqs generalizing acc with
  | nil => simp
  | cons r rest ih =>
    simp only [List.foldl_cons, List.filterMap_cons]
    by_cases hs : (r.type == "subjective") = true
    · rw [ih]
      simp [draftStep, hs]
    · cases hv : tmap r.key with
      | none =>
        rw [ih]
        simp [draftStep, hs, hv]
      | some v =>
        rw [ih]
        simp [draftStep, hs, hv]

/-- Function `score_protocol_for_site` in closed form for an existing protocol. -/
theorem score_protocol_spec (db : DB) (pid sid : ℤ)
    (hp : db.protocols.contains pid = true) :
    score_protocol_for_site db pid sid =
      ScoreOutcome.ok
        ⟨pid, sid, scoreOf db pid sid,
          pyRound (100 * ((scoreOf db pid sid : ℚ) / (totalWeightOf db pid : ℚ))),
          totalWeightOf db pid,
          (matchedReqs db pid sid).map (mkRec (tmapFor db sid)),
          (missedReqs db pid sid).map (mkRec (tmapFor db sid)),
          (subjReqs db pid).map mkSubj⟩ := by
  simp only [score_protocol_for_site, hp, Bool.not_true, Bool.false_eq_true, if_false]
  rw [scoreStep_foldl]
  simp [matchedReqs, missedReqs, subjReqs, scoreOf, totalWeightOf]

/-- A scoring outcome that is `ok` can only come from an existing protocol. -/
theorem score_ok_contains (db : DB) (pid sid : ℤ) (res : ScoreResult)
    (hok : score_protocol_for_site db pid sid = ScoreOutcome.ok res) :
    db.protocols.contains pid = true := by
  by_cases hp : db.protocols.contains pid = true
  · exact hp
  · rw [Bool.not_eq_true] at hp
    have hm : pid ∉ db.protocols := by simpa using hp
    simp [score_protocol_for_site, hm] at hok

/-- C3: for every operator string and every target value, evaluating with
an absent observed value is `false`, regardless of the operator. -/
theorem C3_absent_fact_never_matches (op : String) (t : PyVal) :
    evaluate_rule op t Option.none = false := rfl

/-- C5: the `==` operator is case-insensitive, whitespace-trimmed string
equality of `str(observed)` and `str(target)`, even when both sides look
numeric; the ordering operators compare numerically.  In particular
`evaluate("==", 5, "5.0")` is false while `evaluate(">=", 5, "5.0")` is true
(the target is the second argument of `evaluate_rule`, the observed value the
third). -/
theorem C5_equality_is_textual :
    (∀ (t : PyVal) (o : String),
      evaluate_rule "==" t (some o) =
        (pyLower (pyStrip o) == pyLower (pyStrip (pyStr t)))) ∧
    evaluate_rule "==" (PyVal.pyint 5) (some "5.0") = false ∧
    evaluate_rule ">=" (PyVal.pyint 5) (some "5.0") = true :=
  ⟨fun t o => rfl, by decide, by decide⟩

/-- C4, counterexample: the Value Normalizer's numeric path rejects
`"+5"` (it stays a string), yet the ordering evaluation coerces both sides
with Python `float()` — which accepts `"+5"` — and succeeds, where the claim
requires the evaluation to return false whenever the (digit-based) coercion
fails. -/
theorem C4_counterexample :
    parse_value (some "+5") = PyVal.str "+5" ∧
    pyFloatOfString "+5" = some 5 ∧
    evaluate_rule ">=" (PyVal.str "+5") (some "+5") = true := by
  refine ⟨by decide, by decide, by decide⟩

/-- C4 (amended): for the ordering operators `>=`, `<=`, `>`, `<`, both
the observed value and the target are coerced to numbers with Python
`float()` (via `_to_number`) — a parse broader than the Value Normalizer's
digit-based numeric path, accepting signed numbers, exponent forms and
surrounding whitespace — and whenever either coercion fails the evaluation
returns false without throwing; when both succeed the result is the standard
numeric comparison. -/
theorem C4_ordering_coercion (op : String) (t : PyVal) (o : String)
    (hop : op = ">=" ∨ op = "<=" ∨ op = ">" ∨ op = "<") :
    ((pyFloatOfString o = Option.none ∨ to_number t = Option.none) →
      evaluate_rule op t (some o) = false) ∧
    (∀ a b : ℚ, pyFloatOfString o = some a → to_number t = some b →
      evaluate_rule op t (some o) =
        (if op = ">=" then decide (a ≥ b)
          else if op = "<=" then decide (a ≤ b)
          else if op = ">" then decide (a > b)
          else decide (a < b))) := by
  constructor
  · intro h
    rcases hop with rfl | rfl | rfl | rfl <;>
      cases hf : pyFloatOfString o <;> cases ht : to_number t <;>
        simp [evaluate_rule, hf, ht] <;> simp_all
  · intro a b ha hb
    rcases hop with rfl | rfl | rfl | rfl <;> simp [evaluate_rule, ha, hb]

/-- Witness for C4 (amended): a concrete failed coercion (a list target has
no numeric value) forces a false result. -/
theorem C4_ordering_coercion_witness :
    evaluate_rule ">=" (PyVal.list []) (some "5") = false :=
  (C4_ordering_coercion ">=" (PyVal.list []) "5" (Or.inl rfl)).1 (Or.inr rfl)

/-- Function `build_autofill_draft` in closed form for an existing protocol. -/
theorem build_autofill_spec (db : DB) (pid sid : ℤ)
    (hp : db.protocols.contains pid = true) :
    build_autofill_draft db pid sid =
      DraftOutcome.ok
        ⟨scoreOf db pid sid,
          pyRound (100 * ((scoreOf db pid sid : ℚ) / (totalWeightOf db pid : ℚ))),
          totalWeightOf db pid,
          draftAnswers db pid sid,
          (subjReqs db pid).map mkSubj,
          draftMissing db pid sid,
          pyRound (100 * (((draftAnswers db pid sid).length : ℚ) /
            ((max 1 (objCountOf db pid) : ℕ) : ℚ)))⟩ := by
  simp only [build_autofill_draft, score_protocol_spec db pid sid hp]
  rw [draftStep_foldl]
  simp [draftAnswers, draftMissing, objCountOf]

/-- C9: a missing protocol yields the sentinel error outcome — distinct
by construction from every `ok` result — from the Scorer, and the Autofill
Draft Builder propagates it unchanged; for an existing protocol both
operations return a complete (`ok`) result and never any other error. -/
theorem C9_protocol_not_found (db : DB) (pid sid : ℤ) :
    (db.protocols.contains pid = false →
      score_protocol_for_site db pid sid = ScoreOutcome.error "protocol_not_found" ∧
      build_autofill_draft db pid sid = DraftOutcome.error "protocol_not_found") ∧
    (db.protocols.contains pid = true →
      (∃ r : ScoreResult, score_protocol_for_site db pid sid = ScoreOutcome.ok r) ∧
      (∃ d : AutofillDraft, build_autofill_draft db pid sid = DraftOutcome.ok d)) := by
  constructor
  · intro h
    have hm : pid ∉ db.protocols := by simpa using h
    have hs : score_protocol_for_site db pid sid = ScoreOutcome.error "protocol_not_found" := by
      simp [score_protocol_for_site, hm]
    exact ⟨hs, by simp [build_autofill_draft, hs]⟩
  · intro h
    exact ⟨⟨_, score_protocol_spec db pid sid h⟩, ⟨_, build_autofill_spec db pid sid h⟩⟩

/-- Witness for C9: concrete databases with a missing and with an existing
protocol. -/
theorem C9_protocol_not_found_witness :
    (score_protocol_for_site ⟨[], [], [], []⟩ 1 1 = ScoreOutcome.error "protocol_not_found" ∧
      build_autofill_draft ⟨[], [], [], []⟩ 1 1 = DraftOutcome.error "protocol_not_found") ∧
    ((∃ r : ScoreResult, score_protocol_for_site ⟨[7], [], [], []⟩ 7 2 = ScoreOutcome.ok r) ∧
      (∃ d : AutofillDraft, build_autofill_draft ⟨[7], [], [], []⟩ 7 2 = DraftOutcome.ok d)) :=
  ⟨(C9_protocol_not_found ⟨[], [], [], []⟩ 1 1).1 (by decide),
    (C9_protocol_not_found ⟨[7], [], [], []⟩ 7 2).2 (by decide)⟩

/-- List `filter` only depends on the predicate's values on the list. -/
theorem filter_congr_mem {α : Type} (l : List α) (p q : α → Bool)
    (h : ∀ x ∈ l, p x = q x) : l.filter p = l.filter q := by
  induction l with
  | nil => rfl
  | cons a t ih =>
    simp only [List.filter_cons]
    rw [h a (by simp), ih (fun x hx => h x (by simp [hx]))]

/-- Every `ok` scoring result is the closed form of `score_protocol_spec`. -/
theorem score_ok_eq (db : DB) (pid sid : ℤ) (res : ScoreResult)
    (hok : score_protocol_for_site db pid sid = ScoreOutcome.ok res) :
    res = ⟨pid, sid, scoreOf db pid sid,
      pyRound (100 * ((scoreOf db pid sid : ℚ) / (totalWeightOf db pid : ℚ))),
      totalWeightOf db pid,
      (matchedReqs db pid sid).map (mkRec (tmapFor db sid)),
      (missedReqs db pid sid).map (mkRec (tmapFor db sid)),
      (subjReqs db pid).map mkSubj⟩ := by
  have hp := score_ok_contains db pid sid res hok
  have h2 := score_protocol_spec db pid sid hp
  rw [hok] at h2
  exact (ScoreOutcome.ok.injEq _ _).mp h2

/-- C1: for requirement lists within the documented category domain
(`"objective"`/`"subjective"`), the Scorer walks the stored order and sends
each objective requirement to exactly one of `matches` (when its normalized
target evaluated against the looked-up fact succeeds) or `misses`
(otherwise, including absent facts), each record retaining key, observed
value, operator, target, weight and source_question (the fields of
`mkRec`); every subjective requirement is appended to `subjective`
(`mkSubj` keeps key, parsed target, weight, source_question) and is never
evaluated; and `score` is the sum of the matched objective weights. -/
theorem C1_objective_subjective_partition (db : DB) (pid sid : ℤ) (res : ScoreResult)
    (hok : score_protocol_for_site db pid sid = ScoreOutcome.ok res)
    (hty : ∀ r ∈ reqsFor db pid, r.type = "objective" ∨ r.type = "subjective") :
    res.matches' = ((reqsFor db pid).filter
      (fun r => (r.type == "objective") && reqOk (tmapFor db sid) r)).map
      (mkRec (tmapFor db sid)) ∧
    res.misses = ((reqsFor db pid).filter
      (fun r => (r.type == "objective") && !(reqOk (tmapFor db sid) r))).map
      (mkRec (tmapFor db sid)) ∧
    res.subjective = ((reqsFor db pid).filter (fun r => r.type == "subjective")).map mkSubj ∧
    res.score = (((reqsFor db pid).filter
      (fun r => (r.type == "objective") && reqOk (tmapFor db sid) r)).map
      (fun r => r.weight)).sum := by
  have he := score_ok_eq db pid sid res hok
  subst he
  have hm : matchedReqs db pid sid = (reqsFor db pid).filter
      (fun r => (r.type == "objective") && reqOk (tmapFor db sid) r) := by
    unfold matchedReqs
    exact filter_congr_mem _ _ _ (fun r hr => by rcases hty r hr with h | h <;> simp [h])
  have hx : missedReqs db pid sid = (reqsFor db pid).filter
      (fun r => (r.type == "objective") && !(reqOk (tmapFor db sid) r)) := by
    unfold missedReqs
    exact filter_congr_mem _ _ _ (fun r hr => by rcases hty r hr with h | h <;> simp [h])
  refine ⟨by simp [hm], by simp [hx], by simp [subjReqs], by simp [scoreOf, hm]⟩

/-- C2: `total_weight` is the sum of the objective weights, guarded to 1
when that sum is zero; `confidence` is `round(100 * score / total_weight)`
(Python `round`, half to even, modelled on the exact rational); and a
protocol whose requirements are all subjective gets `confidence = 0` and
`total_weight = 1` with no division error. -/
theorem C2_confidence_total_weight (db : DB) (pid sid : ℤ) (res : ScoreResult)
    (hok : score_protocol_for_site db pid sid = ScoreOutcome.ok res) :
    res.total_weight =
      (if objWeightSum (reqsFor db pid) = 0 then 1 else objWeightSum (reqsFor db pid)) ∧
    res.confidence = pyRound (100 * ((res.score : ℚ) / (res.total_weight : ℚ))) ∧
    ((∀ r ∈ reqsFor db pid, r.type = "subjective") →
      res.confidence = 0 ∧ res.total_weight = 1) := by
  have he := score_ok_eq db pid sid res hok
  subst he
  refine ⟨by simp [totalWeightOf], by simp [totalWeightOf], ?_⟩
  intro hall
  have hobj : (reqsFor db pid).filter (fun r => r.type == "objective") = [] := by
    rw [filter_congr_mem _ _ (fun _ => false) (fun r hr => by simp [hall r hr])]
    simp
  have hmat : matchedReqs db pid sid = [] := by
    unfold matchedReqs
    rw [filter_congr_mem _ _ (fun _ => false) (fun r hr => by simp [hall r hr])]
    simp
  have hw : objWeightSum (reqsFor db pid) = 0 := by
    simp [objWeightSum, hobj]
  have hsc : scoreOf db pid sid = 0 := by
    simp [scoreOf, hmat]
  constructor
  · simp only [totalWeightOf, hw, hsc]
    decide
  · simp [totalWeightOf, hw]

/-- Witness for C2: the all-subjective protocol yields confidence 0 and
total_weight 1. -/
theorem C2_confidence_total_weight_witness :
    ((score_protocol_for_site dbAllSubjective 1 1).get scoreDefault).confidence = 0 ∧
    ((score_protocol_for_site dbAllSubjective 1 1).get scoreDefault).total_weight = 1 :=
  (C2_confidence_total_weight dbAllSubjective 1 1
    ((score_protocol_for_site dbAllSubjective 1 1).get scoreDefault) (by decide)).2.2
    (by decide)

/-- C10: the Scorer partitions on `type == "subjective"` only — every
requirement of any other category (not just `"objective"`) is evaluated into
`matches`/`misses` and its weight scores on success — while `total_weight`
sums only the requirements whose category is exactly `"objective"`; hence a
requirement list with positive weights in a third category drives
`confidence` above 100 (concretely 500 on `dbNonstdCategory`). -/
theorem C10_partition_is_subjective_only (db : DB) (pid sid : ℤ) (res : ScoreResult)
    (hok : score_protocol_for_site db pid sid = ScoreOutcome.ok res) :
    res.matches' = ((reqsFor db pid).filter
      (fun r => !(r.type == "subjective") && reqOk (tmapFor db sid) r)).map
      (mkRec (tmapFor db sid)) ∧
    res.misses = ((reqsFor db pid).filter
      (fun r => !(r.type == "subjective") && !(reqOk (tmapFor db sid) r))).map
      (mkRec (tmapFor db sid)) ∧
    res.score = (((reqsFor db pid).filter
      (fun r => !(r.type == "subjective") && reqOk (tmapFor db sid) r)).map
      (fun r => r.weight)).sum ∧
    res.total_weight =
      (if objWeightSum (reqsFor db pid) = 0 then 1 else objWeightSum (reqsFor db pid)) ∧
    100 < ((score_protocol_for_site dbNonstdCategory 1 1).get scoreDefault).confidence := by
  have he := score_ok_eq db pid sid res hok
  subst he
  refine ⟨by simp [matchedReqs], by simp [missedReqs], by simp [scoreOf, matchedReqs],
    by simp [totalWeightOf], by decide⟩

/-- Witness for C10: the undocumented-category protocol reaches confidence
500. -/
theorem C10_partition_witness :
    100 < ((score_protocol_for_site dbNonstdCategory 1 1).get scoreDefault).confidence :=
  (C10_partition_is_subjective_only dbNonstdCategory 1 1
    ((score_protocol_for_site dbNonstdCategory 1 1).get scoreDefault) (by decide)).2.2.2.2

/-- Members of a list either equal the removed element or survive
`removeFirst`. -/
theorem mem_removeFirst (x c : Char) (l : List Char) (h : c ∈ l) :
    c = x ∨ c ∈ removeFirst x l := by
  induction l with
  | nil => cases h
  | cons a t ih =>
    rw [List.mem_cons] at h
    by_cases hax : a = x
    · rcases h with rfl | h
      · exact Or.inl hax
      · right
        simp [removeFirst, hax, h]
    · rcases h with rfl | h
      · right
        simp [removeFirst, hax]
      · rcases ih h with h1 | h1
        · exact Or.inl h1
        · right
          simp [removeFirst, hax, h1]

/-- Applying `removeFirst` to an absent element is the identity. -/
theorem removeFirst_of_not_mem (x : Char) (l : List Char) (h : x ∉ l) :
    removeFirst x l = l := by
  induction l with
  | nil => rfl
  | cons a t ih =>
    rw [List.mem_cons, not_or] at h
    rw [removeFirst, if_neg (fun he => h.1 he.symm), ih h.2]

/-- Decomposition at the first occurrence of `x`. -/
theorem removeFirst_decomp (x : Char) (l : List Char) (h : x ∈ l) :
    ∃ a b, l = a ++ x :: b ∧ x ∉ a ∧ removeFirst x l = a ++ b := by
  induction l with
  | nil => cases h
  | cons c t ih =>
    by_cases hcx : c = x
    · subst hcx
      exact ⟨[], t, rfl, by simp, by simp [removeFirst]⟩
    · rcases List.mem_cons.mp h with h1 | h1
      · exact absurd h1.symm hcx
      · obtain ⟨a, b, hl, hna, hrf⟩ := ih h1
        refine ⟨c :: a, b, by rw [hl]; rfl, ?_, ?_⟩
        · rw [List.mem_cons, not_or]
          exact ⟨fun he => hcx he.symm, hna⟩
        · rw [removeFirst, if_neg hcx, hrf]
          rfl

/-- Applying `dropWhile` to a list on which the predicate is everywhere false. -/
theorem dropWhile_eq_self_of (p : Char → Bool) (l : List Char)
    (h : ∀ c ∈ l, p c = false) : l.dropWhile p = l := by
  cases l with
  | nil => rfl
  | cons a t =>
    rw [List.dropWhile_cons, h a (by simp)]
    simp

/-- Behaviour of `takeWhile` and `dropWhile` on a list on which the predicate is everywhere
true. -/
theorem takeWhile_eq_self_of (p : Char → Bool) (l : List Char)
    (h : ∀ c ∈ l, p c = true) : l.takeWhile p = l ∧ l.dropWhile p = [] := by
  induction l with
  | nil => exact ⟨rfl, rfl⟩
  | cons a t ih =>
    have ht := ih (fun c hc => h c (by simp [hc]))
    rw [List.takeWhile_cons, List.dropWhile_cons, h a (by simp)]
    simp [ht.1, ht.2]

/-- Behaviour of `takeWhile` and `dropWhile` across an all-true prefix followed by a failing
element. -/
theorem takeWhile_append_of (p : Char → Bool) (a : List Char) (x : Char)
    (b : List Char) (ha : ∀ c ∈ a, p c = true) (hx : p x = false) :
    (a ++ x :: b).takeWhile p = a ∧ (a ++ x :: b).dropWhile p = x :: b := by
  induction a with
  | nil => simp [List.takeWhile_cons, List.dropWhile_cons, hx]
  | cons c t ih =>
    have ht := ih (fun d hd => ha d (by simp [hd]))
    rw [List.cons_append, List.takeWhile_cons, List.dropWhile_cons, ha c (by simp)]
    simp [ht.1, ht.2]

/-- A decimal digit is not whitespace. -/
theorem not_ws_of_digit (c : Char) (h : c.isDigit = true) : c.isWhitespace = false := by
  rcases Bool.eq_false_or_eq_true c.isWhitespace with hw | hw
  · exfalso
    simp only [Char.isWhitespace, Bool.or_eq_true, decide_eq_true_eq] at hw
    rcases hw with ((rfl | rfl) | rfl) | rfl <;> simp [Char.isDigit] at h
  · exact hw

/-- A decimal digit is not a sign character. -/
theorem digit_ne_sign (c : Char) (h : c.isDigit = true) : c ≠ '+' ∧ c ≠ '-' := by
  constructor <;> rintro rfl <;> simp [Char.isDigit] at h

/-- Function `pyStrip` fixes a string without whitespace characters. -/
theorem pyStrip_eq_self_of (l : List Char) (h : ∀ c ∈ l, c.isWhitespace = false) :
    pyStrip (String.mk l) = String.mk l := by
  unfold pyStrip
  rw [show (String.mk l).toList = l from rfl]
  rw [dropWhile_eq_self_of _ l h]
  rw [dropWhile_eq_self_of _ l.reverse (fun c hc => h c (List.mem_reverse.mp hc))]
  rw [List.reverse_reverse]

/-- A nonempty all-digits text is accepted by the modelled `float()`. -/
theorem pyFloat_all_digits (l : List Char) (hne : l ≠ [])
    (hdig : ∀ c ∈ l, c.isDigit = true) :
    (pyFloatOfString (String.mk l)).isSome = true := by
  have hstrip : pyStrip (String.mk l) = String.mk l :=
    pyStrip_eq_self_of l (fun c hc => not_ws_of_digit c (hdig c hc))
  obtain ⟨d, t, rfl⟩ : ∃ d t, l = d :: t := by
    cases l with
    | nil => exact absurd rfl hne
    | cons d t => exact ⟨d, t, rfl⟩
  have hds := digit_ne_sign d (hdig d (by simp))
  have hsgn : splitSign (d :: t) = (1, d :: t) := by
    simp [splitSign, hds.1, hds.2]
  have htw := takeWhile_eq_self_of Char.isDigit (d :: t) hdig
  simp only [pyFloatOfString, hstrip, String.toList, hsgn]
  simp [splitFrac, htw.1, htw.2]

/-- A digits-dot-digits text (with at least one digit) is accepted by the
modelled `float()`. -/
theorem pyFloat_digits_dot (a b : List Char) (hne : a ++ b ≠ [])
    (ha : ∀ c ∈ a, c.isDigit = true) (hb : ∀ c ∈ b, c.isDigit = true) :
    (pyFloatOfString (String.mk (a ++ '.' :: b))).isSome = true := by
  have hnw : ∀ c ∈ a ++ '.' :: b, c.isWhitespace = false := by
    intro c hc
    rcases List.mem_append.mp hc with h | h
    · exact not_ws_of_digit c (ha c h)
    · rcases List.mem_cons.mp h with rfl | h
      · decide
      · exact not_ws_of_digit c (hb c h)
  have hstrip := pyStrip_eq_self_of _ hnw
  have hsgn : splitSign (a ++ '.' :: b) = (1, a ++ '.' :: b) := by
    cases a with
    | nil => simp [splitSign]
    | cons d t =>
      have hds := digit_ne_sign d (ha d (by simp))
      simp [splitSign, hds.1, hds.2]
  have htw := takeWhile_append_of Char.isDigit a '.' b ha (by decide)
  have htb := takeWhile_eq_self_of Char.isDigit b hb
  have hlen : a.length + b.length ≠ 0 := by
    rw [← List.length_append]
    intro h0
    exact hne (List.length_eq_zero.mp h0)
  simp only [pyFloatOfString, hstrip, String.toList, hsgn]
  simp [splitFrac, htw.1, htw.2, htb.1, htb.2, hlen]

/-- A trimmed text that is all digits after removing at most one dot is
accepted by the modelled Python `float()`. -/
theorem pyFloat_isSome_of_digits (txt : String)
    (hA : pyIsDigit (removeFirstDot txt) = true) :
    (pyFloatOfString txt).isSome = true := by
  obtain ⟨l, rfl⟩ : ∃ l, txt = String.mk l := ⟨txt.toList, rfl⟩
  rw [pyIsDigit, Bool.and_eq_true] at hA
  obtain ⟨hne0, hdig0⟩ := hA
  have hm : (removeFirstDot (String.mk l)).toList = removeFirst (Char.ofNat 46) l := rfl
  rw [hm] at hne0 hdig0
  have hne : removeFirst (Char.ofNat 46) l ≠ [] := by
    intro h0
    rw [h0] at hne0
    simp at hne0
  have hdig : ∀ c ∈ removeFirst (Char.ofNat 46) l, c.isDigit = true := by
    intro c hc
    exact List.all_eq_true.mp hdig0 c hc
  have h46 : Char.ofNat 46 = '.' := by decide
  by_cases hdot : Char.ofNat 46 ∈ l
  · obtain ⟨a, b, hl, hna, hrf⟩ := removeFirst_decomp _ l hdot
    rw [hrf] at hne hdig
    rw [hl, h46]
    refine pyFloat_digits_dot a b hne ?_ ?_
    · exact fun c hc => hdig c (List.mem_append.mpr (Or.inl hc))
    · exact fun c hc => hdig c (List.mem_append.mpr (Or.inr hc))
  · rw [removeFirst_of_not_mem _ _ hdot] at hne hdig
    exact pyFloat_all_digits l hne hdig

/-- C6, counterexample: on the piece `""a""` the Python strip call with a
double-quote argument removes every surrounding double quote, so
`parse_value("[\"\"a\"\"]")` is `["a"]`, while stripping one layer of
surrounding quotes — the claim's wording, modelled by
`stripOneLayerQuotes` — would leave `"a"` (quotes kept). -/
theorem C6_counterexample :
    parse_value (some "[\"\"a\"\"]") = PyVal.list ["a"] ∧
    stripOneLayerQuotes (pyStrip "\"\"a\"\"") = "\"a\"" ∧
    ("a" : String) ≠ "\"a\"" :=
  ⟨by decide, by decide, by decide⟩

/-- C6 (amended): for every input (including `None`) `parse_value`
returns (total by construction) and follows the strict first-match ladder of
`parse_value_spec`: `None → None`; bracketed text → a list of comma-split
pieces, each trimmed and stripped of all surrounding double quotes then all
surrounding single quotes (not just one layer); case-insensitive
true/false → bool; text all digits after removing at most one dot → the
parsed float (so `parse("3") = parse(" 3 ") = 3.0`); everything else → the
trimmed string (`parse("3.5.2")` is the string `"3.5.2"`, not a crash). -/
theorem C6_parse_value_ladder :
    (∀ raw : Option String, parse_value raw = parse_value_spec raw) ∧
    parse_value (some "3") = PyVal.num 3 ∧
    parse_value (some " 3 ") = PyVal.num 3 ∧
    parse_value (some "3.5.2") = PyVal.str "3.5.2" := by
  refine ⟨?_, by decide, by decide, by decide⟩
  intro raw
  cases raw with
  | none => rfl
  | some r =>
    simp only [parse_value, parse_value_spec]
    by_cases hb : (startsWithBracket (pyStrip r) && endsWithBracket (pyStrip r)) = true
    · simp [hb]
    · rw [Bool.not_eq_true] at hb
      by_cases h1 : pyLower (pyStrip r) = "true"
      · simp [hb, h1]
      · by_cases h2 : pyLower (pyStrip r) = "false"
        · simp [hb, h1, h2]
        · by_cases hA : pyIsDigit (removeFirstDot (pyStrip r)) = true
          · have hs := pyFloat_isSome_of_digits (pyStrip r) hA
            obtain ⟨q, hq⟩ := Option.isSome_iff_exists.mp hs
            simp [hb, h1, h2, hA, to_number, hq]
          · rw [Bool.not_eq_true] at hA
            simp [hb, h1, h2, hA, to_number]

/-- Value of `listMin` on the empty list. -/
theorem listMin_nil : listMin [] = Option.none := rfl

/-- Value of `listMax` on the empty list. -/
theorem listMax_nil : listMax [] = Option.none := rfl

/-- C7, counterexample: a site with one capability record whose optional
fields are all absent: the claim requires all five synthesized keys in the
fact map, but only `patient_sex` is set — `indications` (and the age/volume
keys) are missing. -/
theorem C7_counterexample :
    ([(⟨Option.none, Option.none, Option.none, Option.none, Option.none⟩ :
        SitePatientCapability)] ≠ []) ∧
    load_site_truth_map []
      [⟨Option.none, Option.none, Option.none, Option.none, Option.none⟩] "indications" =
      Option.none ∧
    load_site_truth_map []
      [⟨Option.none, Option.none, Option.none, Option.none, Option.none⟩] "patient_sex" =
      some "all" :=
  ⟨by decide, by decide, by decide⟩

/-- C7 (amended): whenever a site has at least one patient-capability
record, `patient_sex` is always synthesized (`"all"` if any lowered record
sex is `"all"` — absent and empty count as `"all"` — or records disagree,
else the single agreed value), while each of the other four keys is
synthesized exactly when its source fields are present: `indications` from
the nonempty labels (comma-joined), `patient_age_min_years` as the minimum,
`patient_age_max_years` and `annual_eligible_patients` as maxima (not sums);
synthesized values overwrite any flat fact of the same name (the equations
hold for every `truths`), and keys not synthesized fall back to the
flat-facts-only map. -/
theorem C7_capability_synthesis (truths : List SiteTruthField)
    (pcs : List SitePatientCapability) (h : pcs ≠ []) :
    load_site_truth_map truths pcs "patient_sex" =
      some (if (loweredSexes pcs).contains "all" || decide (1 < (loweredSexes pcs).length)
        then "all" else (loweredSexes pcs).headD "all") ∧
    (presentLabels pcs ≠ [] →
      load_site_truth_map truths pcs "indications" = some (pyJoin ", " (presentLabels pcs))) ∧
    (presentLabels pcs = [] →
      load_site_truth_map truths pcs "indications" =
        load_site_truth_map truths [] "indications") ∧
    (∀ v, listMin (pcs.filterMap (fun p => p.age_min_years)) = some v →
      load_site_truth_map truths pcs "patient_age_min_years" = some (intRepr v)) ∧
    (pcs.filterMap (fun p => p.age_min_years) = [] →
      load_site_truth_map truths pcs "patient_age_min_years" =
        load_site_truth_map truths [] "patient_age_min_years") ∧
    (∀ v, listMax (pcs.filterMap (fun p => p.age_max_years)) = some v →
      load_site_truth_map truths pcs "patient_age_max_years" = some (intRepr v)) ∧
    (pcs.filterMap (fun p => p.age_max_years) = [] →
      load_site_truth_map truths pcs "patient_age_max_years" =
        load_site_truth_map truths [] "patient_age_max_years") ∧
    (∀ v, listMax (pcs.filterMap (fun p => p.annual_eligible_patients)) = some v →
      load_site_truth_map truths pcs "annual_eligible_patients" = some (intRepr v)) ∧
    (pcs.filterMap (fun p => p.annual_eligible_patients) = [] →
      load_site_truth_map truths pcs "annual_eligible_patients" =
        load_site_truth_map truths [] "annual_eligible_patients") := by
  have hne : pcs.isEmpty = false := by
    cases pcs with
    | nil => exact absurd rfl h
    | cons a t => rfl
  refine ⟨?_, fun hl => ?_, fun hl => ?_, fun v hv => ?_, fun hm => ?_, fun v hv => ?_,
    fun hm => ?_, fun v hv => ?_, fun hm => ?_⟩
  · by_cases hC : ("all" ∈ loweredSexes pcs ∨ 1 < (loweredSexes pcs).length) <;>
      cases hann : listMax (pcs.filterMap fun p => p.annual_eligible_patients) <;>
        simp [load_site_truth_map, hne, hann, hC, tmapInsert, ite_apply, apply_ite]
  · have hlb : (presentLabels pcs).isEmpty = false := by
      cases hpl : presentLabels pcs with
      | nil => exact absurd hpl hl
      | cons a t => rfl
    cases hann : listMax (pcs.filterMap fun p => p.annual_eligible_patients) <;>
      cases hmax : listMax (pcs.filterMap fun p => p.age_max_years) <;>
        cases hmin : listMin (pcs.filterMap fun p => p.age_min_years) <;>
          simp [load_site_truth_map, hne, hann, hmax, hmin, hlb, tmapInsert, ite_apply, apply_ite]
  · cases hann : listMax (pcs.filterMap fun p => p.annual_eligible_patients) <;>
      cases hmax : listMax (pcs.filterMap fun p => p.age_max_years) <;>
        cases hmin : listMin (pcs.filterMap fun p => p.age_min_years) <;>
          simp [load_site_truth_map, hne, hann, hmax, hmin, hl, tmapInsert, ite_apply, apply_ite]
  · cases hann : listMax (pcs.filterMap fun p => p.annual_eligible_patients) <;>
      cases hmax : listMax (pcs.filterMap fun p => p.age_max_years) <;>
        simp [load_site_truth_map, hne, hann, hmax, hv, tmapInsert, ite_apply, apply_ite]
  · cases hann : listMax (pcs.filterMap fun p => p.annual_eligible_patients) <;>
      cases hmax : listMax (pcs.filterMap fun p => p.age_max_years) <;>
        simp [load_site_truth_map, hne, hann, hmax, hm, listMin_nil, tmapInsert, ite_apply, apply_ite]
  · cases hann : listMax (pcs.filterMap fun p => p.annual_eligible_patients) <;>
      simp [load_site_truth_map, hne, hann, hv, tmapInsert, ite_apply, apply_ite]
  · cases hann : listMax (pcs.filterMap fun p => p.annual_eligible_patients) <;>
      cases hmin : listMin (pcs.filterMap fun p => p.age_min_years) <;>
        simp [load_site_truth_map, hne, hann, hmin, hm, listMax_nil, tmapInsert, ite_apply, apply_ite]
  · simp [load_site_truth_map, hne, hv, tmapInsert]
  · cases hmax : listMax (pcs.filterMap fun p => p.age_max_years) <;>
      cases hmin : listMin (pcs.filterMap fun p => p.age_min_years) <;>
        simp [load_site_truth_map, hne, hmax, hmin, hm, listMax_nil, tmapInsert, ite_apply, apply_ite]

/-- Witness for C7 (amended): the synthesized volume is the max `"300"`
(not the sum) and overwrites the flat fact `"999"`; the agreed sex is kept. -/
theorem C7_capability_synthesis_witness :
    load_site_truth_map [⟨"annual_eligible_patients", "999"⟩] pcsTwo
      "annual_eligible_patients" = some "300" ∧
    load_site_truth_map [⟨"annual_eligible_patients", "999"⟩] pcsTwo
      "patient_sex" = some "male" := by
  have h := C7_capability_synthesis [⟨"annual_eligible_patients", "999"⟩] pcsTwo (by decide)
  constructor
  · rw [h.2.2.2.2.2.2.2.1 300 (by decide)]
    decide
  · rw [h.1]
    decide

/-- A draft outcome that is `ok` can only come from an existing protocol. -/
theorem draft_ok_contains (db : DB) (pid sid : ℤ) (d : AutofillDraft)
    (hok : build_autofill_draft db pid sid = DraftOutcome.ok d) :
    db.protocols.contains pid = true := by
  by_cases hp : db.protocols.contains pid = true
  · exact hp
  · rw [Bool.not_eq_true] at hp
    have hm : pid ∉ db.protocols := by simpa using hp
    simp [build_autofill_draft, score_protocol_for_site, hm] at hok

/-- Every `ok` draft is the closed form of `build_autofill_spec`. -/
theorem draft_ok_eq (db : DB) (pid sid : ℤ) (d : AutofillDraft)
    (hok : build_autofill_draft db pid sid = DraftOutcome.ok d) :
    d = ⟨scoreOf db pid sid,
      pyRound (100 * ((scoreOf db pid sid : ℚ) / (totalWeightOf db pid : ℚ))),
      totalWeightOf db pid,
      draftAnswers db pid sid,
      (subjReqs db pid).map mkSubj,
      draftMissing db pid sid,
      pyRound (100 * (((draftAnswers db pid sid).length : ℚ) /
        ((max 1 (objCountOf db pid) : ℕ) : ℚ)))⟩ := by
  have hp := draft_ok_contains db pid sid d hok
  have h2 := build_autofill_spec db pid sid hp
  rw [hok] at h2
  exact (DraftOutcome.ok.injEq _ _).mp h2

/-- C8: in the autofill draft every non-subjective (in particular every
objective) requirement lands in exactly one of `objective_answers` (fact
present: `draftAnswers`, whose `mkAnswer` carries the raw fact string
verbatim, the rationale naming the source key, and the `meets_requirement`
flag recomputed with `evaluate_rule` on the normalized target) and
`unresolved_missing_data` (no fact: `draftMissing`, reason
`"No site data found"`), and `coverage_pct =
round(100 * len(objective_answers) / max(1, objective requirement count))`. -/
theorem C8_autofill_partition (db : DB) (pid sid : ℤ) (d : AutofillDraft)
    (hok : build_autofill_draft db pid sid = DraftOutcome.ok d) :
    d.objective_answers = draftAnswers db pid sid ∧
    d.unresolved_missing_data = draftMissing db pid sid ∧
    d.coverage_pct = pyRound (100 * ((d.objective_answers.length : ℚ) /
      ((max 1 (objCountOf db pid) : ℕ) : ℚ))) := by
  have he := draft_ok_eq db pid sid d hok
  subst he
  exact ⟨rfl, rfl, rfl⟩

/-- Witness for C8: 4 objective requirements with 3 facts present give
`coverage_pct = 75` and exactly one missing-data entry. -/
theorem C8_autofill_partition_witness :
    ((build_autofill_draft db4of3 1 1).get draftDefault).coverage_pct = 75 ∧
    ((build_autofill_draft db4of3 1 1).get draftDefault).unresolved_missing_data.length = 1 := by
  have h := C8_autofill_partition db4of3 1 1
    ((build_autofill_draft db4of3 1 1).get draftDefault) (by decide)
  constructor
  · rw [h.2.2, h.1]
    decide
  · rw [h.2.1]
    decide

/-- Witness for C1: the partition at a concrete mixed protocol. -/
theorem C1_objective_subjective_partition_witness :
    ((score_protocol_for_site dbMixed 1 1).get scoreDefault).matches' =
      ((reqsFor dbMixed 1).filter
        (fun r => (r.type == "objective") && reqOk (tmapFor dbMixed 1) r)).map
        (mkRec (tmapFor dbMixed 1)) ∧
    ((score_protocol_for_site dbMixed 1 1).get scoreDefault).misses =
      ((reqsFor dbMixed 1).filter
        (fun r => (r.type == "objective") && !(reqOk (tmapFor dbMixed 1) r))).map
        (mkRec (tmapFor dbMixed 1)) ∧
    ((score_protocol_for_site dbMixed 1 1).get scoreDefault).subjective =
      ((reqsFor dbMixed 1).filter (fun r => r.type == "subjective")).map mkSubj ∧
    ((score_protocol_for_site dbMixed 1 1).get scoreDefault).score =
      (((reqsFor dbMixed 1).filter
        (fun r => (r.type == "objective") && reqOk (tmapFor dbMixed 1) r)).map
        (fun r => r.weight)).sum :=
  C1_objective_subjective_partition dbMixed 1 1
    ((score_protocol_for_site dbMixed 1 1).get scoreDefault) (by decide) (by decide)

end SiteSync
